import Mathlib

/-!
# Album ranking form: rating aggregation and draft reconciliation

A shallow embedding of `src/App.js` (a React component) and the properties
of its rating aggregator (`calculateAverage`), of the draft transitions
(`addSongField`, `resetForm`, `handleEdit`) and of the submission path
(`handleSubmit`).

Numbers are ECMAScript Numbers: IEEE 754 binary64 values.  A finite value is
carried by the rational it denotes, every arithmetic result is rounded to the
nearest binary64 value (ties to even), and overflow gives an infinity.  The
two zeroes are identified: no operation embedded here tells them apart
(`toFixed` prints both as zero, and a sum started at `0` is never `-0`).
-/

namespace AlbumRank

/-! ## ECMAScript Numbers -/

/-- An ECMAScript Number: NaN, an infinity, or a finite binary64 value given
by the rational number it denotes. -/
inductive JSNum where
  | nan
  | posInf
  | negInf
  | fin (q : ℚ)
  deriving DecidableEq

/-- The power of two `2 ^ e` for an integer exponent, as a rational. -/
def pow2 (e : Int) : ℚ :=
  if 0 ≤ e then ((2 ^ e.toNat : Nat) : ℚ) else 1 / ((2 ^ (-e).toNat : Nat) : ℚ)

/-- The power of ten `10 ^ e` for an integer exponent, as a rational. -/
def pow10 (e : Int) : ℚ :=
  if 0 ≤ e then ((10 ^ e.toNat : Nat) : ℚ) else 1 / ((10 ^ (-e).toNat : Nat) : ℚ)

/-- The number of halvings that bring `n` below `2`, with at most `fuel`
halvings. -/
def log2Fuel : Nat → Nat → Nat
  | 0, _ => 0
  | fuel + 1, n => if 2 ≤ n then log2Fuel fuel (n / 2) + 1 else 0

/-- The greatest `k` with `2 ^ k ≤ n`, for a positive natural number `n`. -/
def natLog2 (n : Nat) : Nat := log2Fuel n n

/-- The greatest `e` with `2 ^ e ≤ a`, for a positive rational `a`. -/
def floorLog2 (a : ℚ) : Int :=
  let e0 : Int := (natLog2 a.num.natAbs : Int) - (natLog2 a.den : Int)
  if pow2 e0 ≤ a then e0 else e0 - 1

/-- Rounding of a non-negative rational to the nearest integer, ties to the
even one. -/
def roundHalfEven (a : ℚ) : Nat :=
  let f := (a.num / a.den).toNat
  let r := a - (f : ℚ)
  if r < 1 / 2 then f
  else if 1 / 2 < r then f + 1
  else if f % 2 = 0 then f else f + 1

/-- Rounding of a non-negative rational to the nearest integer, ties upwards. -/
def roundHalfUp (a : ℚ) : Nat :=
  ((a + 1 / 2).num / (a + 1 / 2).den).toNat

/-- The Number value for a rational: the nearest binary64 value, ties to the
even significand, with a 53-bit significand, least exponent `-1022`
(subnormals below it) and overflow to an infinity from `2 ^ 1024` on. -/
def roundToDouble (q : ℚ) : JSNum :=
  if q = 0 then .fin 0
  else
    let a := |q|
    let e := max (floorLog2 a) (-1022)
    let ulp := pow2 (e - 52)
    let r := (roundHalfEven (a / ulp) : ℚ) * ulp
    if pow2 1024 ≤ r then (if q < 0 then .negInf else .posInf)
    else .fin (if q < 0 then -r else r)

/-- The Number for a natural number (an array length). -/
def JSNum.ofNat (n : Nat) : JSNum := roundToDouble n

/-- The global `isNaN` applied to a Number. -/
def isNaN : JSNum → Bool
  | .nan => true
  | _ => false

/-- Number addition, the `+` of `(a, b) => a + b`. -/
def jsAdd : JSNum → JSNum → JSNum
  | .nan, _ => .nan
  | _, .nan => .nan
  | .posInf, .negInf => .nan
  | .negInf, .posInf => .nan
  | .posInf, _ => .posInf
  | _, .posInf => .posInf
  | .negInf, _ => .negInf
  | _, .negInf => .negInf
  | .fin a, .fin b => roundToDouble (a + b)

/-- Number division, the `/` of `total / ratings.length`. -/
def jsDiv : JSNum → JSNum → JSNum
  | .nan, _ => .nan
  | _, .nan => .nan
  | .fin a, .fin b =>
      if b = 0 then
        (if a = 0 then .nan else if 0 < a then .posInf else .negInf)
      else roundToDouble (a / b)
  | .fin _, _ => .fin 0
  | .posInf, .fin b => if 0 ≤ b then .posInf else .negInf
  | .negInf, .fin b => if 0 ≤ b then .negInf else .posInf
  | _, _ => .nan

/-- ToBoolean of a Number: `0` and NaN are falsy. -/
def JSNum.truthy : JSNum → Bool
  | .nan => false
  | .fin q => decide (q ≠ 0)
  | _ => true

/-! ## The global parseFloat -/

/-- The characters `parseFloat` skips at the start of its argument:
ECMAScript WhiteSpace and LineTerminator code points. -/
def isStrWhiteSpaceChar (c : Char) : Bool :=
  let n := c.toNat
  n = 9 || n = 10 || n = 11 || n = 12 || n = 13 || n = 32 || n = 160 ||
  n = 0x1680 || (0x2000 ≤ n && n ≤ 0x200A) || n = 0x2028 || n = 0x2029 ||
  n = 0x202F || n = 0x205F || n = 0x3000 || n = 0xFEFF

/-- The value of a decimal digit character. -/
def digitValue (c : Char) : Nat := c.toNat - 48

/-- The natural number written by a list of decimal digits. -/
def digitsValue (ds : List Char) : Nat :=
  ds.foldl (fun acc c => 10 * acc + digitValue c) 0

/-- The value of the longest ExponentPart (`e` or `E`, an optional sign, at
least one digit) at the start of the characters; `0` when there is none. -/
def parseExponent (cs : List Char) : Int :=
  match cs with
  | [] => 0
  | c :: rest =>
    if c = 'e' || c = 'E' then
      let signed : Bool × List Char :=
        match rest with
        | '+' :: r => (false, r)
        | '-' :: r => (true, r)
        | _ => (false, rest)
      let ds := signed.2.takeWhile Char.isDigit
      if ds.isEmpty then 0
      else if signed.1 then -((digitsValue ds : Nat) : Int) else ((digitsValue ds : Nat) : Int)
    else 0

/-- The mathematical value of the longest prefix that is an unsigned decimal
literal (`12`, `12.`, `12.5`, `.5`, each with an optional exponent), or `none`
when no prefix is one. -/
def parseDecimal (cs : List Char) : Option ℚ :=
  let ip := cs.takeWhile Char.isDigit
  let r1 := cs.dropWhile Char.isDigit
  match r1 with
  | '.' :: r2 =>
    let fp := r2.takeWhile Char.isDigit
    let r3 := r2.dropWhile Char.isDigit
    if ip.isEmpty && fp.isEmpty then none
    else some ((digitsValue (ip ++ fp) : ℚ) * pow10 (parseExponent r3 - (fp.length : Int)))
  | _ =>
    if ip.isEmpty then none
    else some ((digitsValue ip : ℚ) * pow10 (parseExponent r1))

/-- The global `parseFloat` on a string: leading white space is skipped, the
longest prefix that is a signed decimal literal or `Infinity` is converted,
and NaN is returned when there is no such prefix. -/
def parseFloatString (s : String) : JSNum :=
  let cs := s.toList.dropWhile isStrWhiteSpaceChar
  let signed : Bool × List Char :=
    match cs with
    | '+' :: r => (false, r)
    | '-' :: r => (true, r)
    | _ => (false, cs)
  if "Infinity".toList.isPrefixOf signed.2 then
    (if signed.1 then .negInf else .posInf)
  else
    match parseDecimal signed.2 with
    | none => .nan
    | some q => roundToDouble (if signed.1 then -q else q)

/-! ## The method toFixed -/

/-- The decimal digits of a natural number, most significant first. -/
def decimalDigits (n : Nat) : List Char := Nat.toDigits 10 n

/-- A candidate of `k` significant digits for the shortest representation of
the positive Number `a` whose integer part has `d` digits: the pair `(s, n)`
with `s * 10 ^ (n - k)` converting back to `a`, closest to `a`. -/
def shortestCandidate (a : ℚ) (d k : Nat) : Option (Nat × Nat) :=
  let scale := pow10 ((d : Int) - (k : Int))
  let lo := ((a / scale).num / (a / scale).den).toNat
  let ok : Nat → Bool := fun s => decide (roundToDouble ((s : ℚ) * scale) = .fin a)
  let norm : Nat → Nat × Nat := fun s => if s = 10 ^ k then (10 ^ (k - 1), d + 1) else (s, d)
  match ok lo, ok (lo + 1) with
  | true, false => some (norm lo)
  | false, true => some (norm (lo + 1))
  | false, false => none
  | true, true =>
    let dl := a - (lo : ℚ) * scale
    let dh := ((lo : ℚ) + 1) * scale - a
    if dl < dh then some (norm lo)
    else if dh < dl then some (norm (lo + 1))
    else if lo % 2 = 0 then some (norm lo) else some (norm (lo + 1))

/-- The first candidate with `k`, `k + 1`, ... significant digits, trying
`fuel` lengths. -/
def shortestFrom (a : ℚ) (d : Nat) : Nat → Nat → Option (Nat × Nat)
  | 0, _ => none
  | fuel + 1, k =>
    match shortestCandidate a d k with
    | some r => some r
    | none => shortestFrom a d fuel (k + 1)

/-- Number::toString for a positive finite Number `a` with `10 ^ 21 ≤ a`:
the shortest digits that convert back to `a`, in exponential form
(`1e+21`, `1.5e+30`). -/
def numberToStringLarge (a : ℚ) : String :=
  let d := (decimalDigits (a.num / a.den).toNat).length
  match shortestFrom a d 17 1 with
  | none => ""
  | some (s, n) =>
    match decimalDigits s with
    | [] => ""
    | [c] => String.mk (c :: 'e' :: '+' :: decimalDigits (n - 1))
    | c :: rest => String.mk (c :: '.' :: rest ++ 'e' :: '+' :: decimalDigits (n - 1))

/-- The method `x.toFixed(f)` for `0 ≤ f ≤ 100`: a non-finite Number gives
`NaN`, `Infinity` or `-Infinity`; a magnitude from `10 ^ 21` on gives
Number::toString; otherwise the integer `n` nearest to `x * 10 ^ f` (the
larger of two) is written with the point before its last `f` digits. -/
def toFixed (x : JSNum) (f : Nat) : String :=
  match x with
  | .nan => "NaN"
  | .posInf => "Infinity"
  | .negInf => "-Infinity"
  | .fin q =>
    let s : List Char := if q < 0 then ['-'] else []
    let a := |q|
    if pow10 21 ≤ a then String.mk (s ++ (numberToStringLarge a).toList)
    else
      let n := roundHalfUp (a * pow10 f)
      let m := decimalDigits n
      if f = 0 then String.mk (s ++ m)
      else
        let m := List.replicate (f + 1 - m.length) '0' ++ m
        let k := m.length
        String.mk (s ++ (m.take (k - f) ++ '.' :: m.drop (k - f)))

/-! ## Data model -/

/-- The `rating` of a song entry: a string (what the form inputs produce) or a
Number (what a stored album may carry). -/
inductive Rating where
  | str (s : String)
  | num (x : JSNum)
  deriving DecidableEq

/-- ToBoolean of a rating, the test of `s.title && s.rating`: the empty
string, the Number `0` and NaN are falsy. -/
def Rating.truthy : Rating → Bool
  | .str s => decide (s ≠ "")
  | .num x => x.truthy

/-- A rating that is present: a string other than the empty one, or any
Number. -/
def Rating.nonEmpty : Rating → Bool
  | .str s => decide (s ≠ "")
  | .num _ => true

/-- The global `parseFloat` on a rating.  A Number argument is first converted
with Number::toString, whose digits convert back to the same Number, so the
result is the argument itself. -/
def parseFloat : Rating → JSNum
  | .str s => parseFloatString s
  | .num x => x

/-- One row of the song list, `{ title, rating, note }`. -/
structure SongEntry where
  title : String
  rating : Rating
  note : String
  deriving DecidableEq

/-- The album fields of the draft, `{ title, artist, type }`. -/
structure AlbumForm where
  title : String
  artist : String
  type : String
  deriving DecidableEq

/-- An album identifier as the server assigns it: an integer or a string. -/
inductive AlbumId where
  | num (n : Int)
  | str (s : String)
  deriving DecidableEq

/-- ToBoolean of an identifier, the test of `editingId ? ... : ...`. -/
def AlbumId.truthy : AlbumId → Bool
  | .num n => decide (n ≠ 0)
  | .str s => decide (s ≠ "")

/-- The text of an identifier inside a template literal. -/
def AlbumId.toText : AlbumId → String
  | .num n =>
    if n < 0 then String.mk ('-' :: decimalDigits n.natAbs)
    else String.mk (decimalDigits n.natAbs)
  | .str s => s

/-- An album of the list the server returns; the fields `rank`, `average`,
`total_score` and `max_score` are only displayed and are left out. -/
structure Album where
  id : AlbumId
  title : String
  artist : String
  type : String
  songs : List SongEntry
  deriving DecidableEq

/-- The value given to `setAverage`: `{ total, average, max }`. -/
structure AggregateResult where
  total : JSNum
  average : Option String
  max : Nat
  deriving DecidableEq

/-- The state of the component the transitions read and write: `albumForm`,
`songs`, `average` (`none` is `null`) and `editingId` (`none` is `null`).
The album list and the sort settings, which only the list view reads, are
left out. -/
structure State where
  albumForm : AlbumForm
  songs : List SongEntry
  average : Option AggregateResult
  editingId : Option AlbumId
  deriving DecidableEq

/-- The row `{ title: "", rating: "", note: "" }`. -/
def emptyRow : SongEntry := { title := "", rating := .str "", note := "" }

/-- The album fields `{ title: "", artist: "", type: "Album" }`. -/
def initialAlbumForm : AlbumForm := { title := "", artist := "", type := "Album" }

/-- The state of the `useState` initial values. -/
def initialState : State :=
  { albumForm := initialAlbumForm, songs := [emptyRow], average := none, editingId := none }

/-- The constant `API_URL`. -/
def API_URL : String := "https://albumbackende-1.onrender.com"

/-! ## The rating aggregator -/

/-- The body of `calculateAverage` on the song list it reads: the value it
passes to `setAverage`. -/
def calculateAverage (songs : List SongEntry) : AggregateResult :=
  let ratings := (songs.map (fun s => parseFloat s.rating)).filter (fun r => !isNaN r)
  let total := ratings.foldl (fun a b => jsAdd a b) (.fin 0)
  let avg :=
    if ratings.length ≠ 0 then some (toFixed (jsDiv total (JSNum.ofNat ratings.length)) 2)
    else none
  { total := total, average := avg, max := ratings.length * 10 }

/-- The effect `useEffect(() => calculateAverage(), [songs])`, run after a
render in which `songs` is a new array: `calculateAverage` reads the songs of
that render. -/
def songsEffect (s : State) : State :=
  { s with average := some (calculateAverage s.songs) }

/-- What the render shows for the aggregate, `average && <p>...</p>`: the
line is shown exactly when the stored aggregate is not `null`. -/
def aggregateShown (s : State) : Bool := s.average.isSome

/-! ## Draft transitions -/

/-- The handler `addSongField`. -/
def addSongField (s : State) : State :=
  if s.songs.length < 50 then { s with songs := s.songs ++ [emptyRow] } else s

/-- The handler `resetForm`: the four setters, applied to the state. -/
def resetForm (_s : State) : State :=
  { albumForm := { title := "", artist := "", type := "Album" },
    songs := [{ title := "", rating := .str "", note := "" }],
    average := none,
    editingId := none }

/-- The handler `handleEdit`: the three setters take the album's values, and
`calculateAverage()` runs inside the handler, where `songs` is still the song
list of the render the handler was created in. -/
def handleEdit (s : State) (album : Album) : State :=
  { albumForm := { title := album.title, artist := album.artist, type := album.type },
    songs := album.songs,
    editingId := some album.id,
    average := some (calculateAverage s.songs) }

/-! ## Submission -/

/-- The body of a create or update request, `{ ...albumForm, songs }`. -/
structure Payload where
  title : String
  artist : String
  type : String
  songs : List SongEntry
  deriving DecidableEq

/-- The HTTP method of a create or update request. -/
inductive Method where
  | POST
  | PUT
  deriving DecidableEq

/-- What a handler does to the outside: a blocking `alert`, the `fetch` of a
create or update request, or the list refresh `fetchAlbums()`. -/
inductive Action where
  | alert (msg : String)
  | fetch (method : Method) (url : String) (payload : Payload)
  | fetchAlbums
  deriving DecidableEq

/-- ToBoolean of `editingId`. -/
def editingTruthy : Option AlbumId → Bool
  | none => false
  | some i => i.truthy

/-- The array `songs.filter(s => s.title && s.rating)`. -/
def filteredSongs (songs : List SongEntry) : List SongEntry :=
  songs.filter (fun s => decide (s.title ≠ "") && s.rating.truthy)

/-- The handler `handleSubmit`; `resOk` is the `res.ok` of the response to the
request, read only when a request is sent (a `fetch` that never answers is
not modelled).  The result is the state after the handler and what it did,
in order. -/
def handleSubmit (s : State) (resOk : Bool) : State × List Action :=
  let filtered := filteredSongs s.songs
  if s.albumForm.title = "" || s.albumForm.artist = "" || filtered.length = 0 then
    (s, [.alert "Fill out album info and songs."])
  else
    let payload : Payload :=
      { title := s.albumForm.title, artist := s.albumForm.artist, type := s.albumForm.type,
        songs := filtered }
    let method := if editingTruthy s.editingId then Method.PUT else Method.POST
    let url :=
      match s.editingId with
      | some i => if i.truthy then API_URL ++ "/" ++ i.toText else API_URL
      | none => API_URL
    if resOk then (resetForm s, [.fetch method url payload, .fetchAlbums])
    else (s, [.fetch method url payload, .alert "Error saving album"])

/-- The create and update requests among the actions of a handler. -/
def requestsOf (acts : List Action) : List Action :=
  acts.filter (fun a => match a with
    | .fetch _ _ _ => true
    | _ => false)

/-- The network calls among the actions of a handler: requests and list
refreshes. -/
def networkCalls (acts : List Action) : List Action :=
  acts.filter (fun a => match a with
    | .alert _ => false
    | _ => true)

/-! ## Vocabulary of the properties and example inputs -/

/-- A rating parses when `parseFloat` does not give NaN. -/
def ratingParses (r : Rating) : Bool := !isNaN (parseFloat r)

/-- A song entry with a title and the given rating. -/
def rated (r : Rating) : SongEntry := { title := "song", rating := r, note := "" }

/-- A state whose song list is the given one, with album fields filled in. -/
def draftWith (songs : List SongEntry) (editing : Option AlbumId) : State :=
  { albumForm := { title := "Album title", artist := "Artist", type := "EP" },
    songs := songs, average := none, editingId := editing }

/-- The draft of the C8 example: one song rated "5". -/
def staleDraft : State := draftWith [rated (.str "5")] none

/-- The album of the C8 example: identifier 3, one song rated "9". -/
def loadedAlbum : Album :=
  { id := .num 3, title := "Loaded", artist := "Someone", type := "Album",
    songs := [rated (.str "9")] }

/-- The pair-presence check as the data model reads it: a non-empty title and
a rating that is present, string or Number. -/
def hasTitleAndRating (x : SongEntry) : Bool :=
  decide (x.title ≠ "") && x.rating.nonEmpty

/-- A song entry with the given title and rating. -/
def song (title : String) (r : Rating) : SongEntry :=
  { title := title, rating := r, note := "" }

/-- The draft of the C5 example: the song "A" rated with the Number 0 and the
song "B" rated "5". -/
def zeroRatedDraft : State :=
  draftWith [song "A" (.num (.fin 0)), song "B" (.str "5")] none

/-- The draft of the C6 example: the only song, "A", rated with the Number 0. -/
def onlyZeroRatedDraft : State :=
  draftWith [song "A" (.num (.fin 0))] none

/-- An album with the given identifier and one song rated "9". -/
def albumWithId (i : AlbumId) : Album :=
  { id := i, title := "Loaded", artist := "Someone", type := "Album",
    songs := [song "S" (.str "9")] }

/-- The state after `handleEdit` of an album on the initial state and the
songs effect of the render that follows. -/
def editing (album : Album) : State := songsEffect (handleEdit initialState album)

/-- The characters after an optional leading minus sign. -/
def stripMinus : List Char → List Char
  | '-' :: r => r
  | cs => cs

/-- A string written with exactly two decimal places: an optional minus sign,
one or more digits, a point, two digits, and nothing else. -/
def isTwoDecimalPlaces (str : String) : Bool :=
  let body := stripMinus str.toList
  match body.dropWhile Char.isDigit with
  | ['.', a, b] => !(body.takeWhile Char.isDigit).isEmpty && a.isDigit && b.isDigit
  | _ => false

/-- The rational number a signed decimal string writes, when it starts with
a decimal literal. -/
def decimalValue (str : String) : Option ℚ :=
  match str.toList with
  | '-' :: r => (parseDecimal r).map (fun v => -v)
  | cs => parseDecimal cs

/-- The ratings that parse, in the order of the song list; an entry whose
rating does not parse contributes nothing. -/
def parsedRatings (songs : List SongEntry) : List JSNum :=
  songs.filterMap (fun s => if ratingParses s.rating then some (parseFloat s.rating) else none)

/-- The song list of the spec example: ratings 7, "x", "" and 9. -/
def exampleSongs : List SongEntry :=
  [rated (.num (.fin 7)), rated (.str "x"), rated (.str ""), rated (.num (.fin 9))]

/-! ## Properties of the aggregator: max and average -/

theorem parseFloatString_empty : parseFloatString "" = .nan := by decide!

theorem nonEmpty_of_ratingParses (r : Rating) (h : ratingParses r = true) :
    r.nonEmpty = true := by
  cases r with
  | num x => rfl
  | str s =>
    by_cases hs : s = ""
    · subst hs
      simp [ratingParses, parseFloat, parseFloatString_empty, isNaN] at h
    · simp [Rating.nonEmpty, hs]

theorem parsed_length (songs : List SongEntry) :
    ((songs.map (fun s => parseFloat s.rating)).filter (fun r => !isNaN r)).length
      = (songs.filter (fun s => ratingParses s.rating)).length := by
  rw [List.filter_map, List.length_map]
  rfl

/-- C2: the `max` field of the aggregate is 10 times the number of entries
whose rating parses and is non-empty; it never exceeds 10 times the number of
entries, and is smaller for the list with ratings 7, "x", "" and 9. -/
theorem calculateAverage_max (songs : List SongEntry) :
    (calculateAverage songs).max
        = 10 * (songs.filter (fun s => ratingParses s.rating && s.rating.nonEmpty)).length
      ∧ (calculateAverage songs).max ≤ 10 * songs.length
      ∧ (calculateAverage [rated (.num (.fin 7)), rated (.str "x"), rated (.str ""),
            rated (.num (.fin 9))]).max = 20 := by
  have hfil : songs.filter (fun s => ratingParses s.rating && s.rating.nonEmpty)
      = songs.filter (fun s => ratingParses s.rating) := by
    apply List.filter_congr
    intro x _
    cases hx : ratingParses x.rating with
    | false => rfl
    | true => simp [nonEmpty_of_ratingParses _ hx]
  have hmax : (calculateAverage songs).max
      = (songs.filter (fun s => ratingParses s.rating)).length * 10 := by
    show ((songs.map (fun s => parseFloat s.rating)).filter (fun r => !isNaN r)).length * 10 = _
    rw [parsed_length]
  refine ⟨?_, ?_, by decide!⟩
  · rw [hmax, hfil, Nat.mul_comm]
  · rw [hmax, Nat.mul_comm]
    exact Nat.mul_le_mul_left 10 (List.length_filter_le _ _)

/-- C3: the `average` field is `null` exactly when no entry has a rating that
parses; it is `null` for the empty list and for any number of blank rows, and
a string as soon as one rating parses. -/
theorem calculateAverage_average_null_iff (songs : List SongEntry) :
    ((calculateAverage songs).average = none
        ↔ ∀ s ∈ songs, ratingParses s.rating = false)
      ∧ ((∃ s ∈ songs, ratingParses s.rating = true)
        ↔ ∃ str, (calculateAverage songs).average = some str)
      ∧ (calculateAverage []).average = none
      ∧ ∀ n : Nat, (calculateAverage (List.replicate n emptyRow)).average = none := by
  have key : ∀ l : List SongEntry, ((calculateAverage l).average = none
      ↔ ∀ s ∈ l, ratingParses s.rating = false) := by
    intro l
    have hav : (calculateAverage l).average =
        if ((l.map (fun s => parseFloat s.rating)).filter (fun r => !isNaN r)).length ≠ 0 then
          some (toFixed (jsDiv (((l.map (fun s => parseFloat s.rating)).filter
            (fun r => !isNaN r)).foldl (fun a b => jsAdd a b) (.fin 0))
            (JSNum.ofNat ((l.map (fun s => parseFloat s.rating)).filter
              (fun r => !isNaN r)).length)) 2)
        else none := rfl
    rw [hav, parsed_length]
    constructor
    · intro h s hs
      by_contra hp
      have hmem : s ∈ l.filter (fun s => ratingParses s.rating) := by
        rw [List.mem_filter]
        exact ⟨hs, by simpa using hp⟩
      have hlen : (l.filter (fun s => ratingParses s.rating)).length ≠ 0 := by
        intro h0
        rw [List.length_eq_zero] at h0
        rw [h0] at hmem
        exact List.not_mem_nil _ hmem
      rw [if_pos hlen] at h
      exact Option.noConfusion h
    · intro h
      have hnil : l.filter (fun s => ratingParses s.rating) = [] := by
        rw [List.filter_eq_nil_iff]
        intro a ha
        simp [h a ha]
      rw [hnil]
      rfl
  refine ⟨key songs, ?_, rfl, ?_⟩
  · constructor
    · rintro ⟨s, hs, hp⟩
      cases hav : (calculateAverage songs).average with
      | some str => exact ⟨str, rfl⟩
      | none =>
        have := (key songs).1 hav s hs
        rw [hp] at this
        exact Bool.noConfusion this
    · rintro ⟨str, hstr⟩
      by_contra hno
      have hall : ∀ s ∈ songs, ratingParses s.rating = false := by
        intro s hs
        cases hp : ratingParses s.rating with
        | false => rfl
        | true => exact absurd ⟨s, hs, hp⟩ hno
      rw [(key songs).2 hall] at hstr
      exact Option.noConfusion hstr
  · intro n
    apply (key _).2
    intro s hs
    rw [List.eq_of_mem_replicate hs]
    decide!

/-! ## Properties of the draft transitions -/

/-- C4: `addSongField` leaves a draft of 50 entries unchanged; on a draft of
fewer than 50 entries it appends one empty row after the existing rows and
changes nothing else; a song list of at most 50 entries stays at most 50. -/
theorem addSongField_cap (s : State) :
    (s.songs.length = 50 → addSongField s = s)
      ∧ (s.songs.length < 50 →
          (addSongField s).songs = s.songs ++ [emptyRow]
            ∧ (addSongField s).songs.length = s.songs.length + 1
            ∧ (addSongField s).albumForm = s.albumForm
            ∧ (addSongField s).editingId = s.editingId
            ∧ (addSongField s).average = s.average)
      ∧ (s.songs.length ≤ 50 → (addSongField s).songs.length ≤ 50) := by
  refine ⟨?_, ?_, ?_⟩
  · intro h
    simp [addSongField, h]
  · intro h
    simp [addSongField, h]
  · intro h
    unfold addSongField
    split
    · rename_i hlt
      simp only [List.length_append, List.length_singleton]
      omega
    · exact h

/-- C4 at concrete drafts: a draft of 50 blank rows is unchanged, a draft of
two rows gets the empty row appended, and 49 rows grow to 50. -/
theorem addSongField_cap_witness :
    addSongField (draftWith (List.replicate 50 emptyRow) none)
        = draftWith (List.replicate 50 emptyRow) none
      ∧ (addSongField (draftWith [rated (.str "7"), rated (.str "9")] none)).songs
        = [rated (.str "7"), rated (.str "9"), { title := "", rating := .str "", note := "" }]
      ∧ (addSongField (draftWith (List.replicate 49 emptyRow) none)).songs.length ≤ 50 :=
  ⟨(addSongField_cap (draftWith (List.replicate 50 emptyRow) none)).1 (by decide),
   ((addSongField_cap (draftWith [rated (.str "7"), rated (.str "9")] none)).2.1
      (by decide)).1,
   (addSongField_cap (draftWith (List.replicate 49 emptyRow) none)).2.2 (by decide)⟩

/-- C7: after `resetForm` and the songs effect of the render that follows,
the draft has exactly one empty song row, but the stored aggregate is the
object `{ total: 0, average: null, max: 0 }`, not `null`, so the aggregate
line is shown. -/
theorem resetForm_then_effect_aggregate (s : State) :
    (songsEffect (resetForm s)).songs = [{ title := "", rating := .str "", note := "" }]
      ∧ (resetForm s).average = none
      ∧ (songsEffect (resetForm s)).average
          = some { total := .fin 0, average := none, max := 0 }
      ∧ (songsEffect (resetForm s)).average ≠ none
      ∧ aggregateShown (songsEffect (resetForm s)) = true := by
  have h : (songsEffect (resetForm s)).average
      = some { total := .fin 0, average := none, max := 0 } := by
    show some (calculateAverage [{ title := "", rating := .str "", note := "" }]) = _
    decide!
  refine ⟨rfl, rfl, h, ?_, ?_⟩
  · rw [h]
    exact fun hne => Option.noConfusion hne
  · unfold aggregateShown
    rw [h]
    rfl

/-- C8: `handleEdit` replaces title, artist, type, songs and the editing id
by the album's, but the aggregate it stores is the aggregate of the songs of
the draft that was replaced: with a draft rated "5" and an album rated "9" it
stores total 5 and average "5.00", not the album's total 9 and "9.00". -/
theorem handleEdit_aggregate_of_replaced_draft :
    (∀ (s : State) (album : Album),
        (handleEdit s album).albumForm
            = { title := album.title, artist := album.artist, type := album.type }
          ∧ (handleEdit s album).songs = album.songs
          ∧ (handleEdit s album).editingId = some album.id
          ∧ (handleEdit s album).average = some (calculateAverage s.songs))
      ∧ (handleEdit staleDraft loadedAlbum).average
          = some { total := .fin 5, average := some "5.00", max := 10 }
      ∧ calculateAverage loadedAlbum.songs
          = { total := .fin 9, average := some "9.00", max := 10 }
      ∧ (handleEdit staleDraft loadedAlbum).average
          ≠ some (calculateAverage loadedAlbum.songs) := by
  refine ⟨fun s album => ⟨rfl, rfl, rfl, rfl⟩, ?_, ?_, ?_⟩
  · show some (calculateAverage [rated (.str "5")]) = _
    decide!
  · decide!
  · show some (calculateAverage [rated (.str "5")]) ≠ _
    decide!

/-- After `handleEdit` and the songs effect of the render that follows (it
runs when the album's song array is not the array already in the draft), the
stored aggregate is the aggregate of the album's songs. -/
theorem handleEdit_then_effect_aggregate (s : State) (album : Album) :
    (songsEffect (handleEdit s album)).average = some (calculateAverage album.songs)
      ∧ (songsEffect (handleEdit s album)).songs = album.songs
      ∧ (songsEffect (handleEdit s album)).editingId = some album.id :=
  ⟨rfl, rfl, rfl⟩

/-- C9, as stated, fails: after `resetForm` the album field `type` is
"Album", not the empty string. -/
theorem resetForm_type_not_empty :
    (resetForm (draftWith [rated (.str "7")] (some (.num 3)))).albumForm.type ≠ "" := by
  decide

/-- C9 amended: `resetForm` leaves title and artist empty, `type` equal to
"Album", and no editing id; a submission that sends its request and gets an
ok response ends in that state. -/
theorem resetForm_album_fields (s : State) :
    (resetForm s).albumForm.title = ""
      ∧ (resetForm s).albumForm.artist = ""
      ∧ (resetForm s).albumForm.type = "Album"
      ∧ (resetForm s).editingId = none
      ∧ (requestsOf (handleSubmit s true).2 ≠ [] → (handleSubmit s true).1 = resetForm s) := by
  refine ⟨rfl, rfl, rfl, rfl, ?_⟩
  intro h
  unfold handleSubmit at h ⊢
  simp only at h ⊢
  split
  · rename_i hrej
    rw [if_pos hrej] at h
    exact absurd rfl h
  · rfl

/-- C9 amended, at a draft in editing mode that passes the gate: the
submission with an ok response ends with empty title and artist, the type
"Album" and no editing id. -/
theorem resetForm_album_fields_witness :
    (handleSubmit (draftWith [rated (.str "7")] (some (.num 3))) true).1
      = { albumForm := { title := "", artist := "", type := "Album" },
          songs := [emptyRow], average := none, editingId := none } :=
  (resetForm_album_fields (draftWith [rated (.str "7")] (some (.num 3)))).2.2.2.2 (by decide)

/-! ## Properties of the submission path -/

/-- C5: on a draft that passes the gate and has the songs "A" rated with the
Number 0 and "B" rated "5", both with a title and a rating, the payload sent
carries only "B": the entry rated 0 is dropped.  On the songs of the claim,
"A" rated "5" and an untitled one rated "3", only the first is sent. -/
theorem handleSubmit_drops_number_zero_rating :
    (handleSubmit zeroRatedDraft true).2
        = [.fetch .POST API_URL
              { title := "Album title", artist := "Artist", type := "EP",
                songs := [song "B" (.str "5")] },
           .fetchAlbums]
      ∧ zeroRatedDraft.songs.filter hasTitleAndRating
        = [song "A" (.num (.fin 0)), song "B" (.str "5")]
      ∧ (handleSubmit (draftWith [song "A" (.str "5"), song "" (.str "3")] none) true).2
        = [.fetch .POST API_URL
              { title := "Album title", artist := "Artist", type := "EP",
                songs := [song "A" (.str "5")] },
           .fetchAlbums] := by
  refine ⟨by decide!, by decide!, by decide!⟩

/-- C6: a draft with a title, an artist and the one song "A" rated with the
Number 0, an entry with both a title and a rating, is rejected: the handler
only alerts, sends no request and leaves the state as it was. -/
theorem handleSubmit_rejects_number_zero_rating :
    (∀ resOk : Bool, handleSubmit onlyZeroRatedDraft resOk
        = (onlyZeroRatedDraft, [.alert "Fill out album info and songs."]))
      ∧ (∀ resOk : Bool, networkCalls (handleSubmit onlyZeroRatedDraft resOk).2 = [])
      ∧ onlyZeroRatedDraft.albumForm.title ≠ ""
      ∧ onlyZeroRatedDraft.albumForm.artist ≠ ""
      ∧ (∃ x ∈ onlyZeroRatedDraft.songs, hasTitleAndRating x = true) := by
  refine ⟨by decide!, by decide!, by decide!, by decide!, by decide!⟩

/-- The gate of `handleSubmit` as the code decides it: the handler only
alerts, with the state unchanged and no network call, exactly when the title
is empty, the artist is empty, or no entry passes the truthiness filter;
otherwise it sends exactly one request, whose payload carries the album
fields of the draft and the filtered songs. -/
theorem handleSubmit_gate (s : State) (resOk : Bool) :
    (s.albumForm.title = "" ∨ s.albumForm.artist = "" ∨ filteredSongs s.songs = [] →
        handleSubmit s resOk = (s, [.alert "Fill out album info and songs."])
          ∧ networkCalls (handleSubmit s resOk).2 = [])
      ∧ (¬ (s.albumForm.title = "" ∨ s.albumForm.artist = "" ∨ filteredSongs s.songs = []) →
        ∃ method url, requestsOf (handleSubmit s resOk).2
          = [.fetch method url
              { title := s.albumForm.title, artist := s.albumForm.artist,
                type := s.albumForm.type, songs := filteredSongs s.songs }]) := by
  have hcond : (s.albumForm.title = "" ∨ s.albumForm.artist = "" ∨ filteredSongs s.songs = [])
      ↔ (decide (s.albumForm.title = "") || decide (s.albumForm.artist = "")
          || decide ((filteredSongs s.songs).length = 0)) = true := by
    simp [List.length_eq_zero, or_assoc]
  constructor
  · intro h
    have hc := hcond.1 h
    unfold handleSubmit
    simp only
    rw [if_pos hc]
    exact ⟨rfl, rfl⟩
  · intro h
    have hc : ¬ ((decide (s.albumForm.title = "") || decide (s.albumForm.artist = "")
          || decide ((filteredSongs s.songs).length = 0)) = true) := fun hc => h (hcond.2 hc)
    unfold handleSubmit
    simp only
    rw [if_neg hc]
    cases resOk
    · exact ⟨_, _, rfl⟩
    · exact ⟨_, _, rfl⟩

/-- On a song list whose ratings are all strings, the truthiness filter of
`handleSubmit` keeps exactly the entries with a non-empty title and a
non-empty rating, in order. -/
theorem filteredSongs_of_string_ratings (songs : List SongEntry)
    (h : ∀ x ∈ songs, ∃ t, x.rating = .str t) :
    filteredSongs songs = songs.filter hasTitleAndRating := by
  unfold filteredSongs
  apply List.filter_congr
  intro x hx
  obtain ⟨t, ht⟩ := h x hx
  simp [hasTitleAndRating, ht, Rating.truthy, Rating.nonEmpty]

/-- The request of `handleSubmit` is an update exactly when `editingId` is
truthy: `null`, the number 0 and the empty string all give a create. -/
theorem handleSubmit_method (s : State) (resOk : Bool) (method : Method) (url : String)
    (p : Payload) (h : Action.fetch method url p ∈ (handleSubmit s resOk).2) :
    (method = .PUT ↔ editingTruthy s.editingId = true)
      ∧ (editingTruthy s.editingId = false → url = API_URL) := by
  unfold handleSubmit at h
  simp only at h
  split at h
  · simp at h
  · cases hid : s.editingId with
    | none =>
      rw [hid] at h
      cases resOk <;> simp [editingTruthy] at h <;> simp [editingTruthy, h.1, h.2.1]
    | some i =>
      rw [hid] at h
      cases ht : i.truthy <;> cases resOk <;> simp [editingTruthy, ht] at h <;>
        simp [editingTruthy, ht, h.1, h.2.1]

/-- C10: a draft loaded by `handleEdit` from an album whose identifier is the
number 0 or the empty string passes the gate and is sent as a create, POST to
the base URL; with the identifier 3 it is sent as an update, PUT to the base
URL followed by "/3". -/
theorem handleSubmit_falsy_id_sends_create :
    (handleSubmit (editing (albumWithId (.num 0))) true).2
        = [.fetch .POST "https://albumbackende-1.onrender.com"
              { title := "Loaded", artist := "Someone", type := "Album",
                songs := [song "S" (.str "9")] },
           .fetchAlbums]
      ∧ (handleSubmit (editing (albumWithId (.str ""))) true).2
        = [.fetch .POST "https://albumbackende-1.onrender.com"
              { title := "Loaded", artist := "Someone", type := "Album",
                songs := [song "S" (.str "9")] },
           .fetchAlbums]
      ∧ (editing (albumWithId (.num 0))).editingId = some (.num 0)
      ∧ (handleSubmit (editing (albumWithId (.num 3))) true).2
        = [.fetch .PUT "https://albumbackende-1.onrender.com/3"
              { title := "Loaded", artist := "Someone", type := "Album",
                songs := [song "S" (.str "9")] },
           .fetchAlbums] := by
  refine ⟨by decide!, by decide!, by decide!, by decide!⟩

/-! ## Decimal digits and the shape of a toFixed result -/

theorem digitChar_spec (m : Nat) (h : m < 10) :
    (Nat.digitChar m).isDigit = true ∧ digitValue (Nat.digitChar m) = m := by
  interval_cases m <;> exact ⟨by decide, by decide⟩

theorem digitsValue_snoc (ds : List Char) (c : Char) :
    digitsValue (ds ++ [c]) = 10 * digitsValue ds + digitValue c := by
  simp [digitsValue, List.foldl_append]

theorem toDigitsCore_spec : ∀ (fuel n : Nat) (acc : List Char), n < fuel →
    ∃ ds, Nat.toDigitsCore 10 fuel n acc = ds ++ acc ∧ ds ≠ []
      ∧ (∀ c ∈ ds, c.isDigit = true) ∧ digitsValue ds = n := by
  intro fuel
  induction fuel with
  | zero => intro n acc h; exact absurd h (Nat.not_lt_zero n)
  | succ fuel ih =>
    intro n acc h
    have hd := digitChar_spec (n % 10) (Nat.mod_lt n (by decide))
    by_cases h0 : n / 10 = 0
    · refine ⟨[Nat.digitChar (n % 10)], ?_, by simp, ?_, ?_⟩
      · simp [Nat.toDigitsCore, h0]
      · intro c hc
        rw [List.mem_singleton] at hc
        rw [hc]; exact hd.1
      · have : digitsValue [Nat.digitChar (n % 10)] = digitValue (Nat.digitChar (n % 10)) := by
          simp [digitsValue]
        rw [this, hd.2]
        omega
    · have hlt : n / 10 < fuel := by omega
      obtain ⟨ds, hds, _, hall, hval⟩ := ih (n / 10) (Nat.digitChar (n % 10) :: acc) hlt
      refine ⟨ds ++ [Nat.digitChar (n % 10)], ?_, by simp, ?_, ?_⟩
      · simp [Nat.toDigitsCore, h0, hds]
      · intro c hc
        rw [List.mem_append, List.mem_singleton] at hc
        rcases hc with hc | hc
        · exact hall c hc
        · rw [hc]; exact hd.1
      · rw [digitsValue_snoc, hval, hd.2]
        omega

theorem decimalDigits_spec (n : Nat) :
    decimalDigits n ≠ [] ∧ (∀ c ∈ decimalDigits n, c.isDigit = true)
      ∧ digitsValue (decimalDigits n) = n := by
  obtain ⟨ds, hds, hne, hall, hval⟩ := toDigitsCore_spec (n + 1) n [] (Nat.lt_succ_self n)
  have : decimalDigits n = ds := by
    simp [decimalDigits, Nat.toDigits, hds]
  rw [this]
  exact ⟨hne, hall, hval⟩

theorem digitsValue_zeros (k : Nat) (ds : List Char) :
    digitsValue (List.replicate k '0' ++ ds) = digitsValue ds := by
  induction k with
  | zero => simp
  | succ k ih =>
    have h : digitsValue ('0' :: (List.replicate k '0' ++ ds))
        = digitsValue (List.replicate k '0' ++ ds) := by
      simp [digitsValue, digitValue]
    rw [List.replicate_succ, List.cons_append, h, ih]

theorem takeWhile_digits_point (ip rest : List Char) (h : ∀ c ∈ ip, c.isDigit = true) :
    (ip ++ '.' :: rest).takeWhile Char.isDigit = ip
      ∧ (ip ++ '.' :: rest).dropWhile Char.isDigit = '.' :: rest := by
  constructor
  · rw [List.takeWhile_append_of_pos h]
    simp [List.takeWhile_cons, show ('.' : Char).isDigit = false by decide]
  · rw [List.dropWhile_append_of_pos h]
    simp [List.dropWhile_cons, show ('.' : Char).isDigit = false by decide]

theorem stripMinus_digit (c : Char) (cs : List Char) (h : c.isDigit = true) :
    stripMinus (c :: cs) = c :: cs := by
  unfold stripMinus
  split
  · rename_i r heq
    have hc : c = '-' := (List.cons.inj heq).1
    rw [hc] at h
    exact absurd h (by decide)
  · rfl

theorem decimalValue_digit (c : Char) (cs : List Char) (h : c.isDigit = true) :
    decimalValue (String.mk (c :: cs)) = parseDecimal (c :: cs) := by
  unfold decimalValue
  split
  · rename_i r heq
    have hc : c = '-' := (List.cons.inj heq).1
    rw [hc] at h
    exact absurd h (by decide)
  · rfl

theorem parseDecimal_two_places (ip : List Char) (x y : Char) (hne : ip ≠ [])
    (h : ∀ c ∈ ip, c.isDigit = true) (hx : x.isDigit = true) (hy : y.isDigit = true) :
    parseDecimal (ip ++ '.' :: [x, y]) = some ((digitsValue (ip ++ [x, y]) : ℚ) / 100) := by
  obtain ⟨ht, hd⟩ := takeWhile_digits_point ip [x, y] h
  have hfp : ([x, y] : List Char).takeWhile Char.isDigit = [x, y] := by
    simp [List.takeWhile_cons, hx, hy]
  have hr3 : ([x, y] : List Char).dropWhile Char.isDigit = [] := by
    simp [List.dropWhile_cons, hx, hy]
  have hp : pow10 (parseExponent [] - ((([x, y] : List Char).length : Nat) : Int))
      = 1 / 100 := by
    have hlen : ((([x, y] : List Char).length : Nat) : Int) = 2 := rfl
    rw [hlen]
    decide!
  unfold parseDecimal
  simp only [ht, hd, hfp, hr3]
  have hemp : ip.isEmpty = false := by
    cases ip with
    | nil => exact absurd rfl hne
    | cons a l => rfl
  simp only [hemp, Bool.false_and]
  rw [hp]
  simp [div_eq_mul_inv]

theorem isTwoDecimalPlaces_mk (cs : List Char) :
    isTwoDecimalPlaces (String.mk cs)
      = (match (stripMinus cs).dropWhile Char.isDigit with
        | ['.', a, b] => !((stripMinus cs).takeWhile Char.isDigit).isEmpty && a.isDigit && b.isDigit
        | _ => false) := rfl

theorem two_places_shape (neg : Bool) (ip : List Char) (x y : Char) (hne : ip ≠ [])
    (h : ∀ c ∈ ip, c.isDigit = true) (hx : x.isDigit = true) (hy : y.isDigit = true) :
    isTwoDecimalPlaces (String.mk ((if neg then ['-'] else []) ++ (ip ++ '.' :: [x, y]))) = true
      ∧ decimalValue (String.mk ((if neg then ['-'] else []) ++ (ip ++ '.' :: [x, y])))
        = some ((if neg then -1 else 1) * ((digitsValue (ip ++ [x, y]) : ℚ) / 100)) := by
  obtain ⟨ht, hd⟩ := takeWhile_digits_point ip [x, y] h
  have hpd := parseDecimal_two_places ip x y hne h hx hy
  have hemp : ip.isEmpty = false := by
    cases ip with
    | nil => exact absurd rfl hne
    | cons a l => rfl
  have hbody : isTwoDecimalPlaces (String.mk ('-' :: (ip ++ '.' :: [x, y]))) = true
      ∧ isTwoDecimalPlaces (String.mk (ip ++ '.' :: [x, y])) = true := by
    constructor
    · have hs : stripMinus ('-' :: (ip ++ '.' :: [x, y])) = ip ++ '.' :: [x, y] := rfl
      rw [isTwoDecimalPlaces_mk, hs, hd, ht]
      simp [hemp, hx, hy]
    · cases ip with
      | nil => exact absurd rfl hne
      | cons c l =>
        have hc : c.isDigit = true := h c (List.mem_cons_self c l)
        have hs : stripMinus (c :: l ++ '.' :: [x, y]) = c :: l ++ '.' :: [x, y] :=
          stripMinus_digit c _ hc
        rw [isTwoDecimalPlaces_mk, hs, hd, ht]
        simp [hx, hy]
  cases neg with
  | true =>
    refine ⟨hbody.1, ?_⟩
    have hv : decimalValue (String.mk ('-' :: (ip ++ '.' :: [x, y])))
        = (parseDecimal (ip ++ '.' :: [x, y])).map (fun v => -v) := rfl
    simp only [if_true, List.singleton_append]
    rw [hv, hpd]
    simp
  | false =>
    refine ⟨hbody.2, ?_⟩
    cases ip with
    | nil => exact absurd rfl hne
    | cons c l =>
      have hc : c.isDigit = true := h c (List.mem_cons_self c l)
      have hv := decimalValue_digit c (l ++ '.' :: [x, y]) hc
      simp only [Bool.false_eq_true, if_false, List.nil_append]
      rw [List.cons_append, hv, ← List.cons_append, hpd]
      simp

theorem roundHalfUp_near (a : ℚ) (ha : 0 ≤ a) : |(roundHalfUp a : ℚ) - a| ≤ 1 / 2 := by
  unfold roundHalfUp
  rw [← Rat.floor_def]
  have h0 : 0 ≤ ⌊a + 1 / 2⌋ := Int.floor_nonneg.2 (by linarith)
  have hc : ((⌊a + 1 / 2⌋.toNat : ℕ) : ℚ) = ((⌊a + 1 / 2⌋ : ℤ) : ℚ) := by
    have h1 : ((⌊a + 1 / 2⌋.toNat : ℕ) : ℤ) = ⌊a + 1 / 2⌋ := Int.toNat_of_nonneg h0
    exact_mod_cast congrArg (fun z : ℤ => (z : ℚ)) h1
  rw [hc, abs_le]
  have h1 := Int.floor_le (a + 1 / 2)
  have h2 := Int.lt_floor_add_one (a + 1 / 2)
  constructor <;> linarith

theorem pow10_21 : pow10 21 = 10 ^ 21 := by decide!

theorem pow10_two : pow10 ((2 : Nat) : Int) = 100 := by decide!

theorem toFixed_two_places (q : ℚ) (h : |q| < 10 ^ 21) :
    isTwoDecimalPlaces (toFixed (.fin q) 2) = true
      ∧ ∃ v, decimalValue (toFixed (.fin q) 2) = some v ∧ |v - q| ≤ 1 / 200 := by
  obtain ⟨hne, hall, hval⟩ := decimalDigits_spec (roundHalfUp (|q| * pow10 ((2 : Nat) : Int)))
  generalize hm : List.replicate (2 + 1 - (decimalDigits (roundHalfUp (|q| * pow10 ((2 : Nat) : Int)))).length) '0'
      ++ decimalDigits (roundHalfUp (|q| * pow10 ((2 : Nat) : Int))) = m
  have hm_all : ∀ c ∈ m, c.isDigit = true := by
    intro c hc
    rw [← hm, List.mem_append] at hc
    rcases hc with hc | hc
    · rw [(List.mem_replicate.1 hc).2]; decide
    · exact hall c hc
  have hm_len : 3 ≤ m.length := by
    rw [← hm, List.length_append, List.length_replicate]
    omega
  have hm_val : digitsValue m = roundHalfUp (|q| * pow10 ((2 : Nat) : Int)) := by
    rw [← hm, digitsValue_zeros, hval]
  have hfp_len : (m.drop (m.length - 2)).length = 2 := by
    rw [List.length_drop]; omega
  obtain ⟨x, y, hxy⟩ := List.length_eq_two.1 hfp_len
  have hip_ne : m.take (m.length - 2) ≠ [] := by
    intro h0
    have := congrArg List.length h0
    rw [List.length_take] at this
    simp at this
    omega
  have hip_all : ∀ c ∈ m.take (m.length - 2), c.isDigit = true :=
    fun c hc => hm_all c (List.mem_of_mem_take hc)
  have hx : x.isDigit = true := by
    apply hm_all
    apply List.mem_of_mem_drop (n := m.length - 2)
    rw [hxy]; simp
  have hy : y.isDigit = true := by
    apply hm_all
    apply List.mem_of_mem_drop (n := m.length - 2)
    rw [hxy]; simp
  have hjoin : m.take (m.length - 2) ++ [x, y] = m := by
    rw [← hxy, List.take_append_drop]
  have hform : toFixed (.fin q) 2
      = String.mk ((if decide (q < 0) then ['-'] else [])
          ++ (m.take (m.length - 2) ++ '.' :: [x, y])) := by
    unfold toFixed
    simp only
    rw [if_neg (by rw [pow10_21]; exact not_le.2 h), if_neg (by decide : ¬ ((2 : Nat) = 0)), hm,
      hxy]
    by_cases hq : q < 0 <;> simp [hq]
  obtain ⟨hshape, hv⟩ := two_places_shape (decide (q < 0)) _ x y hip_ne hip_all hx hy
  rw [← hform] at hshape hv
  refine ⟨hshape, _, hv, ?_⟩
  rw [hjoin, hm_val, pow10_two]
  have hnear := roundHalfUp_near (|q| * 100) (by positivity)
  rw [abs_le] at hnear ⊢
  by_cases hq : q < 0
  · simp only [hq, decide_True, if_true]
    rw [abs_of_neg hq] at hnear ⊢
    constructor <;> linarith
  · simp only [hq, decide_False, Bool.false_eq_true, if_false]
    rw [abs_of_nonneg (not_lt.1 hq)] at hnear ⊢
    constructor <;> linarith

/-! ## Properties of the aggregator: total and average -/

theorem parsed_eq_parsedRatings (songs : List SongEntry) :
    (songs.map (fun s => parseFloat s.rating)).filter (fun r => !isNaN r)
      = parsedRatings songs := by
  induction songs with
  | nil => rfl
  | cons a l ih =>
    unfold parsedRatings at ih ⊢
    rw [List.map_cons, List.filterMap_cons]
    cases hp : ratingParses a.rating with
    | true =>
      have hn : (!isNaN (parseFloat a.rating)) = true := hp
      rw [List.filter_cons, ih]
      simp [hn]
    | false =>
      have hn : (!isNaN (parseFloat a.rating)) = false := hp
      rw [List.filter_cons, ih]
      simp [hn]

/-- C1, as stated, fails: for the single rating "1e21", which parses, the
total is 10 ^ 21 and the average is the string "1e+21", which is not written
with two decimal places; two ratings "1e308" sum to Infinity and give the
average "Infinity". -/
theorem calculateAverage_average_not_two_places :
    ratingParses (.str "1e21") = true
      ∧ calculateAverage [rated (.str "1e21")]
        = { total := .fin (10 ^ 21), average := some "1e+21", max := 10 }
      ∧ isTwoDecimalPlaces "1e+21" = false
      ∧ (¬ ∃ str, (calculateAverage [rated (.str "1e21")]).average = some str
          ∧ isTwoDecimalPlaces str = true)
      ∧ calculateAverage [rated (.str "1e308"), rated (.str "1e308")]
        = { total := .posInf, average := some "Infinity", max := 20 } := by
  have h1 : calculateAverage [rated (.str "1e21")]
      = { total := .fin (10 ^ 21), average := some "1e+21", max := 10 } := by decide!
  refine ⟨by decide!, h1, by decide!, ?_, by decide!⟩
  rintro ⟨str, hstr, htwo⟩
  rw [h1] at hstr
  have : str = "1e+21" := (Option.some.inj hstr).symm
  rw [this] at htwo
  exact absurd htwo (by decide!)

/-- C1 amended: `total` is the Number sum, added from 0 in list order, of the
ratings that parse (unparsed entries are left out, values are not clamped);
when at least one rating parses, `average` is `total` divided by the number of
parsed ratings, formatted by `toFixed(2)`, and whenever that quotient is
finite and below 10 ^ 21 in magnitude the string has exactly two decimal
places and writes the hundredth nearest to the quotient. -/
theorem calculateAverage_total_average (songs : List SongEntry) :
    (calculateAverage songs).total = (parsedRatings songs).foldl jsAdd (.fin 0)
      ∧ (parsedRatings songs ≠ [] →
          (calculateAverage songs).average
            = some (toFixed (jsDiv ((parsedRatings songs).foldl jsAdd (.fin 0))
                (JSNum.ofNat (parsedRatings songs).length)) 2))
      ∧ (∀ q : ℚ, parsedRatings songs ≠ [] →
          jsDiv ((parsedRatings songs).foldl jsAdd (.fin 0))
              (JSNum.ofNat (parsedRatings songs).length) = .fin q →
          |q| < 10 ^ 21 →
          ∃ str v, (calculateAverage songs).average = some str
            ∧ isTwoDecimalPlaces str = true
            ∧ decimalValue str = some v ∧ |v - q| ≤ 1 / 200) := by
  have htot : (calculateAverage songs).total = (parsedRatings songs).foldl jsAdd (.fin 0) := by
    show ((songs.map (fun s => parseFloat s.rating)).filter (fun r => !isNaN r)).foldl
      (fun a b => jsAdd a b) (.fin 0) = _
    rw [parsed_eq_parsedRatings]
  have havg : parsedRatings songs ≠ [] →
      (calculateAverage songs).average
        = some (toFixed (jsDiv ((parsedRatings songs).foldl jsAdd (.fin 0))
            (JSNum.ofNat (parsedRatings songs).length)) 2) := by
    intro hne
    have hlen : (parsedRatings songs).length ≠ 0 := by
      intro h0
      exact hne (List.length_eq_zero.1 h0)
    have hav : (calculateAverage songs).average =
        if ((songs.map (fun s => parseFloat s.rating)).filter (fun r => !isNaN r)).length ≠ 0 then
          some (toFixed (jsDiv (((songs.map (fun s => parseFloat s.rating)).filter
            (fun r => !isNaN r)).foldl (fun a b => jsAdd a b) (.fin 0))
            (JSNum.ofNat ((songs.map (fun s => parseFloat s.rating)).filter
              (fun r => !isNaN r)).length)) 2)
        else none := rfl
    rw [hav, parsed_eq_parsedRatings, if_pos hlen]
  refine ⟨htot, havg, ?_⟩
  intro q hne hq hlt
  obtain ⟨htwo, v, hv, hnear⟩ := toFixed_two_places q hlt
  refine ⟨toFixed (.fin q) 2, v, ?_, htwo, hv, hnear⟩
  rw [havg hne, hq]

/-- C1 amended, at the ratings 7, "x", "" and 9: the total is 16, the
average is "8.00", a string with two decimal places that writes 8, and max is
20; the ratings "-3" and "12" are summed unclamped to 9. -/
theorem calculateAverage_total_average_witness :
    calculateAverage exampleSongs = { total := .fin 16, average := some "8.00", max := 20 }
      ∧ (calculateAverage exampleSongs).total
          = [JSNum.fin 7, JSNum.fin 9].foldl jsAdd (.fin 0)
      ∧ (∃ str v, (calculateAverage exampleSongs).average = some str
          ∧ isTwoDecimalPlaces str = true
          ∧ decimalValue str = some v ∧ |v - 8| ≤ 1 / 200)
      ∧ calculateAverage [rated (.str "-3"), rated (.str "12")]
          = { total := .fin 9, average := some "4.50", max := 20 } :=
  ⟨by decide!,
   (calculateAverage_total_average exampleSongs).1,
   (calculateAverage_total_average exampleSongs).2.2 8 (by decide!) (by decide!)
     (by norm_num),
   by decide!⟩

/-- Number addition rounds: the ratings "0.1" and "0.2" give a total that is
the binary64 value next above three tenths, not the exact sum of the two
parsed values. -/
theorem calculateAverage_total_rounds :
    (calculateAverage [rated (.str "0.1"), rated (.str "0.2")]).total
        = .fin (1351079888211149 / 4503599627370496)
      ∧ parseFloat (.str "0.1") = .fin (3602879701896397 / 36028797018963968)
      ∧ parseFloat (.str "0.2") = .fin (3602879701896397 / 18014398509481984)
      ∧ (3602879701896397 / 36028797018963968 + 3602879701896397 / 18014398509481984 : ℚ)
          ≠ 1351079888211149 / 4503599627370496 := by
  refine ⟨by decide!, by decide!, by decide!, by norm_num⟩

end AlbumRank
